import Mathlib

/-!
Verification of the chat-bridger backend's core conversation machinery
against its specification.

The Python source is shallowly embedded: the Supabase-backed message store
(`src/openai_agents_extensions/supabase_session.py`) becomes an in-memory
table of rows carrying a creation timestamp, with the database clock
modelled as a strictly monotone natural-number counter (successive calls to
`_get_current_time()` yield strictly larger stamps, and an SQL `order by
created_at` is an explicit comparison sort over the rows); the agent loop
(`src/core/agent_loop.py`), the client-tool stubs
(`src/core/client_tools.py`), the request router
(`src/api/routers/chat.py`) and the event normalizer
(`src/core/event_handlers.py`) become pure functions over explicit data.
Python's `json.loads` is an external library call and enters the model as a
function parameter `jsonLoads : String → Option JsonVal` (`none` models a
raised `JSONDecodeError`); `json.dumps` followed by `json.loads` is the
identity on the well-formed items the store holds, so rows store the item
itself.
-/

namespace ChatBridger

/-- A JSON value, the shape `json.loads` returns and `params_schema`
fields carry. -/
inductive JsonVal where
  | null : JsonVal
  | bool (b : Bool) : JsonVal
  | num (n : Int) : JsonVal
  | str (s : String) : JsonVal
  | arr (xs : List JsonVal) : JsonVal
  | obj (fields : List (String × JsonVal)) : JsonVal
deriving Repr

/-- One part of a list-valued `content` field of a persisted item:
a dict part carries its `type` tag and its `text` value (`.get("text", "")`),
anything that is not a dict is opaque. -/
inductive ContentPart where
  | dict (typ : String) (text : String) : ContentPart
  | other (tag : Nat) : ContentPart
deriving Repr, DecidableEq

/-- The `content` field of a persisted item: a string, a list of parts, or
some other JSON value (opaque to the code under study). -/
inductive ItemContent where
  | str (s : String) : ItemContent
  | parts (ps : List ContentPart) : ItemContent
  | other (tag : Nat) : ItemContent
deriving Repr, DecidableEq

/-- A persisted turn item, the dict shape the session stores. `role`,
`tool_call_id` and `content` are the keys the core reads (`none` models a
missing key); `extra` stands for every other key, so equality of two
`Item`s is equality of the whole dicts. The replacement dict built by
`continue_after_client_tools` has exactly the three named keys, i.e.
`extra = 0`. -/
structure Item where
  role : Option String
  tool_call_id : Option String
  content : Option ItemContent
  extra : Nat
deriving Repr, DecidableEq

/-- `ClientToolResult` from `src/api/models/requests.py`: `tool_call_id` and
`tool_name` are required, `result` and `error` are `Optional[str]`. -/
structure ClientToolResult where
  tool_call_id : String
  tool_name : String
  result : Option String
  error : Option String
deriving Repr, DecidableEq

/-- `ClientToolDefinition` from `src/api/models/requests.py`. -/
structure ClientToolDefinition where
  name : String
  description : String
  params_schema : Option JsonVal
deriving Repr

/-- `MessageRequest` from `src/api/models/requests.py` (the fields
`send_message` reads). -/
structure MessageRequest where
  message : String
  session_id : String
  agent_key : Option String
  stream : Bool
  client_tools : Option (List ClientToolDefinition)
  tool_results : Option (List ClientToolResult)

/-- One stored row of the messages table: the parsed `message_data` item and
its `created_at` stamp. -/
structure Row where
  data : Item
  created : Nat
deriving Repr, DecidableEq

/-- The store state one `SupabaseSession` sees: its rows of the messages
table and the conversation's `updated_at` stamp. -/
structure SessionState where
  rows : List Row
  updatedAt : Nat
deriving Repr, DecidableEq

/-- A whitespace character as Python's `str.strip()` removes it (the ASCII
ones; Python also strips a few rarer control characters). -/
def isWhitespaceChar (c : Char) : Bool :=
  c = ' ' || c = '\t' || c = '\n' || c = '\r'

/-- Python's `not s.strip()`: true exactly when every character of `s` is
whitespace (in particular when `s` is empty). -/
def isBlankString (s : String) : Bool :=
  s.toList.all isWhitespaceChar

/-- `SupabaseSession._is_empty_user_message`: a user-authored item whose
string content is empty or whitespace-only, or whose list content has no
text in its dict parts of type `text`. A missing `content` key defaults to
the empty string. -/
def is_empty_user_message (item : Item) : Bool :=
  if item.role ≠ some "user" then false
  else
    match item.content.getD (ItemContent.str "") with
    | ItemContent.str s => isBlankString s
    | ItemContent.parts ps =>
        isBlankString
          (ps.foldl
            (fun acc p =>
              match p with
              | ContentPart.dict typ text => if typ = "text" then acc ++ text else acc
              | ContentPart.other _ => acc)
            "")
    | ItemContent.other _ => false

/-- The rows a batch write creates: item `i` of the batch is stamped
`now + i`, modelling the per-item `_get_current_time()` calls of a strictly
monotone clock. -/
def stampRows (now : Nat) : List Item → List Row
  | [] => []
  | it :: rest => ⟨it, now⟩ :: stampRows (now + 1) rest

/-- `SupabaseSession.add_items`: an empty input list returns at once; else
empty user messages are filtered out; if everything was filtered only
`updated_at` is touched; else the surviving items are inserted as one batch,
each individually stamped, and `updated_at` is touched afterwards. `now` is
the clock at entry; every stamp the call writes lies in
`[now, now + items.length]`. -/
def add_items (st : SessionState) (now : Nat) (items : List Item) : SessionState :=
  if items.isEmpty then st
  else
    let filtered_items := items.filter (fun it => ! is_empty_user_message it)
    if filtered_items.isEmpty then { st with updatedAt := now }
    else
      { rows := st.rows ++ stampRows now filtered_items,
        updatedAt := now + filtered_items.length }

/-- Ascending insertion by `created_at`, modelling the database's
`order("created_at", desc=False)`. -/
def insertAsc (r : Row) : List Row → List Row
  | [] => [r]
  | x :: xs => if r.created ≤ x.created then r :: x :: xs else x :: insertAsc r xs

/-- Sort ascending by `created_at`. -/
def orderAsc : List Row → List Row
  | [] => []
  | r :: rest => insertAsc r (orderAsc rest)

/-- Descending insertion by `created_at`, modelling
`order("created_at", desc=True)`. -/
def insertDesc (r : Row) : List Row → List Row
  | [] => [r]
  | x :: xs => if x.created ≤ r.created then r :: x :: xs else x :: insertDesc r xs

/-- Sort descending by `created_at`. -/
def orderDesc : List Row → List Row
  | [] => []
  | r :: rest => insertDesc r (orderDesc rest)

/-- `SupabaseSession.get_items`: with no limit, all rows ascending by
`created_at`; with a limit, the latest `limit` rows descending, parsed, then
reversed back to chronological order before returning. -/
def get_items (st : SessionState) (limit : Option Nat) : List Item :=
  match limit with
  | none => (orderAsc st.rows).map (fun r => r.data)
  | some k => (((orderDesc st.rows).take k).map (fun r => r.data)).reverse

/-- `SupabaseSession.clear_session`: delete every row, touch `updated_at`. -/
def clear_session (_st : SessionState) (now : Nat) : SessionState :=
  { rows := [], updatedAt := now }

/-- A sequence of `add_items` calls against one session, the clock advancing
past every stamp a batch used before the next batch runs. -/
def runBatches (st : SessionState) (now : Nat) : List (List Item) → SessionState
  | [] => st
  | b :: bs => runBatches (add_items st now b) (now + b.length + 1) bs

/-- The items of a batch that survive the empty-user-message filter. -/
def keptItems (items : List Item) : List Item :=
  items.filter (fun it => ! is_empty_user_message it)

/-- Every stored stamp is below the clock. -/
def rowsBound (st : SessionState) (now : Nat) : Prop :=
  ∀ r ∈ st.rows, r.created < now

/-- Stamps strictly increase along the stored row list. -/
def rowsSorted (st : SessionState) : Prop :=
  st.rows.Pairwise (fun a b => a.created < b.created)

/-- The sentinel marker the client-tool stubs embed in a pending tool
result's content. -/
def pendingMarker : String := "PENDING_CLIENT_EXECUTION"

/-- Whether `needle` is an initial segment of `haystack` (over characters). -/
def leadsWith : List Char → List Char → Bool
  | [], _ => true
  | _ :: _, [] => false
  | a :: as, b :: bs => a = b && leadsWith as bs

/-- Whether `needle` occurs contiguously inside the character list. -/
def occursIn (needle : List Char) : List Char → Bool
  | [] => needle.isEmpty
  | b :: bs => leadsWith needle (b :: bs) || occursIn needle bs

/-- Python's `marker in content` substring test over the pending marker. -/
def containsPendingMarker (s : String) : Bool :=
  occursIn pendingMarker.toList s.toList

/-- The pending-sentinel test of `AgentLoop.continue_after_client_tools`:
`role == "tool"`, string content, and the marker occurs in the content. -/
def isPendingSentinel (item : Item) : Bool :=
  item.role == some "tool" &&
    match item.content with
    | some (ItemContent.str s) => containsPendingMarker s
    | _ => false

/-- The content the rewrite stores for a matched sentinel:
`tool_result.result or f"Tool {tool_result.tool_name} executed successfully"`.
Python's `or` takes the fallback when `result` is `None` and also when it is
the (falsy) empty string. -/
def resultContent (r : ClientToolResult) : String :=
  match r.result with
  | some s =>
      if s = "" then "Tool " ++ r.tool_name ++ " executed successfully" else s
  | none => "Tool " ++ r.tool_name ++ " executed successfully"

/-- The replacement dict `continue_after_client_tools` builds for a matched
sentinel: exactly the keys `role`, `tool_call_id`, `content`. -/
def replacementItem (r : ClientToolResult) : Item :=
  { role := some "tool",
    tool_call_id := some r.tool_call_id,
    content := some (ItemContent.str (resultContent r)),
    extra := 0 }

/-- The inner `for tool_result in tool_results ... break` search: the first
supplied result whose `tool_call_id` equals the item's. -/
def findMatch (rs : List ClientToolResult) (callId : Option String) :
    Option ClientToolResult :=
  rs.find? (fun r => callId == some r.tool_call_id)

/-- The sentinel-replacement pass of `continue_after_client_tools` over the
retrieved history: a pending sentinel is replaced by the first matching
result, a pending sentinel with no matching result appends nothing, any
other item is appended unchanged. -/
def continueRewrite (rs : List ClientToolResult) : List Item → List Item
  | [] => []
  | item :: rest =>
      if isPendingSentinel item then
        match findMatch rs item.tool_call_id with
        | some r => replacementItem r :: continueRewrite rs rest
        | none => continueRewrite rs rest
      else item :: continueRewrite rs rest

/-- Per-item form of the rewrite pass. -/
def rewriteResumeItem (rs : List ClientToolResult) (item : Item) : Option Item :=
  if isPendingSentinel item then (findMatch rs item.tool_call_id).map replacementItem
  else some item

/-- `AgentLoop.continue_after_client_tools` up to the point generation
resumes: without a session it raises `ValueError("Session required for
continuation")` before touching any state; with one it reads the full
history, runs the sentinel-replacement pass, clears the session and writes
the rewritten list back, returning the store state generation then resumes
from. -/
def continue_after_client_tools (session : Option SessionState) (now : Nat)
    (tool_results : List ClientToolResult) : Except String SessionState :=
  match session with
  | none => Except.error "Session required for continuation"
  | some st =>
      let session_items := get_items st none
      let updated_items := continueRewrite tool_results session_items
      Except.ok (add_items (clear_session st now) (now + 1) updated_items)

/-- `send_message`'s mode decision: fresh run or continuation. -/
inductive RunMode where
  | fresh : RunMode
  | resume : RunMode
deriving Repr, DecidableEq

/-- `is_continuation = bool(request.tool_results)`: `None` and the empty
list are falsy, a non-empty list is truthy. -/
def is_continuation (request : MessageRequest) : Bool :=
  match request.tool_results with
  | none => false
  | some l => ¬ l.isEmpty

/-- The dispatch in `send_message`: a continuation goes to
`AgentLoop.continue_after_client_tools`, anything else to
`AgentLoop.run_agent_stream`. -/
def dispatchMode (request : MessageRequest) : RunMode :=
  if is_continuation request then RunMode.resume else RunMode.fresh

/-- The payload `client_tool_handler` in `src/core/client_tools.py` returns
(as a JSON dump; modelled structurally). -/
structure ClientToolStubPayload where
  status : String
  tool_name : String
  tool_call_id : String
  parameters : JsonVal
  message : String
deriving Repr

/-- `client_tool_handler`: parse the call's argument string (a raised
`JSONDecodeError`, i.e. `jsonLoads args = none`, degrades to the empty
object) and return the structured pending payload. No tool logic runs:
the function only assembles this record. -/
def client_tool_handler (jsonLoads : String → Option JsonVal)
    (toolName : String) (toolCallId : String) (args : String) :
    ClientToolStubPayload :=
  let parameters :=
    match jsonLoads args with
    | some v => v
    | none => JsonVal.obj []
  { status := "PENDING_CLIENT_EXECUTION",
    tool_name := toolName,
    tool_call_id := toolCallId,
    parameters := parameters,
    message := "Waiting for client execution of " ++ toolName }

/-- A synthetic client-tool stub as registered on the agent: name,
description, and the `params_schema` or the basic fallback schema. -/
structure FunctionTool where
  name : String
  description : String
  params_json_schema : JsonVal
deriving Repr

/-- The fallback `params_schema` of `create_client_tool_function`. -/
def basicSchema : JsonVal :=
  JsonVal.obj
    [("type", JsonVal.str "object"),
     ("properties", JsonVal.obj []),
     ("required", JsonVal.arr [])]

/-- `convert_client_tools_to_function_tools`: one stub per definition. -/
def convert_client_tools_to_function_tools
    (client_tools : List ClientToolDefinition) : List FunctionTool :=
  client_tools.map fun ct =>
    { name := ct.name,
      description := ct.description,
      params_json_schema := ct.params_schema.getD basicSchema }

/-- A tool on an agent: a pre-existing server tool (opaque) or a converted
client-tool stub. -/
inductive AgentTool where
  | server (tag : Nat) : AgentTool
  | client (t : FunctionTool) : AgentTool
deriving Repr

/-- `agent.tool_use_behavior`: the SDK default, a `StopAtTools` condition,
or anything else. -/
inductive ToolUseBehavior where
  | runLLMAgain : ToolUseBehavior
  | stopAtTools (stop_at_tool_names : List String) : ToolUseBehavior
  | otherBehavior (tag : Nat) : ToolUseBehavior
deriving Repr

/-- The agent definition fields `run_agent_stream` touches. `tools` is
`Option`al because the SDK field may be `None` (`agent_with_tools.tools or
[]`). -/
structure Agent where
  name : String
  instructions : String
  tools : Option (List AgentTool)
  tool_use_behavior : ToolUseBehavior

/-- The tool-attachment prologue of `AgentLoop.run_agent_stream`: clone the
agent; only when a non-empty client-tool list is supplied, extend the tool
list with the converted stubs and set the `StopAtTools` condition on the
clone. The set `{tool.name for tool in client_tools}` is modelled as the
names in first-occurrence order with duplicates removed (Python's set
iteration order is unspecified). -/
def prepareAgentForRun (agent : Agent)
    (client_tools : Option (List ClientToolDefinition)) : Agent :=
  let agent_with_tools := agent
  match client_tools with
  | none => agent_with_tools
  | some cts =>
      if cts.isEmpty then agent_with_tools
      else
        let client_function_tools := convert_client_tools_to_function_tools cts
        { agent_with_tools with
          tools := some ((agent_with_tools.tools.getD []) ++
            client_function_tools.map AgentTool.client),
          tool_use_behavior :=
            ToolUseBehavior.stopAtTools ((cts.map (fun ct => ct.name)).eraseDups) }

/-- A wire event as the normalizer emits it: the `type` string, the `data`
payload, and (for `tool_call` only) the extra top-level `call_id` key. -/
structure WireEvent where
  typ : String
  data : JsonVal
  callId : Option String := none
deriving Repr

/-- The custom dict events the orchestrator manufactures: the value of the
`type` key (`none` models a dict without one) and the keys the handlers
read. -/
structure DictEventPayload where
  tool_name : Option String
  parameters : Option JsonVal
  tool_call_id : Option String
  session_id : Option String
  dataField : Option JsonVal
deriving Repr

/-- `event.item.raw_item` of a run-item event: its `call_id`, the
`function` attribute's name and arguments when present, and the
`getattr(..., "name"/"arguments", default)` fallbacks otherwise. -/
structure ToolRawItem where
  call_id : String
  func : Option (String × String)
  attrName : Option String
  attrArgs : Option String
deriving Repr

/-- The pieces of `event.item` the run-item handlers read. -/
structure RunItemInfo where
  rawItem : Option ToolRawItem
  output : Option String
  itemId : Option String
  text : String
deriving Repr

/-- `type(event.data)` of a raw response event, one constructor per class
in the normalizer's dispatch table, plus `otherData` for every class
outside it. -/
inductive RespData where
  | textDelta (delta : String) : RespData
  | respCreated (responseId : String) (model : String) (status : String) : RespData
  | outputItemAdded (itemId : String) (itemType : String) (outputIndex : Nat) : RespData
  | contentPartAdded (itemId : String) (contentIndex : Nat) (partType : String) : RespData
  | contentPartDone (itemId : String) (contentIndex : Nat) (partText : Option String) : RespData
  | outputItemDone (itemId : String) (status : String) (partTexts : Option (List (Option String))) : RespData
  | funcArgsDelta (delta : String) (itemId : String) (outputIndex : Nat) : RespData
  | completed (responseId : String) (model : String) (status : Option String)
      (usage : Option (Nat × Nat × Nat)) : RespData
  | otherData (tag : Nat) : RespData
deriving Repr

/-- A raw event as `EventProcessor.process_event` receives it: a plain dict,
an `AgentUpdatedStreamEvent`, a `RunItemStreamEvent` (which has no `data`
attribute), an event carrying a `data` attribute, or anything else. -/
inductive RawEvent where
  | dict (typ : Option String) (payload : DictEventPayload) : RawEvent
  | agentUpdated (newAgentName : String) : RawEvent
  | runItem (name : String) (item : RunItemInfo) : RawEvent
  | withData (data : RespData) : RawEvent
  | plain (tag : Nat) : RawEvent
deriving Repr

/-- A `None`-to-`"None"` rendering, as a Python f-string shows a missing
value. -/
def optShow (s : Option String) : String :=
  match s with
  | some v => v
  | none => "None"

/-- `ToolCallHandler.handle` for a `tool_called` event (the name already
matched): read the raw item (`None` leaves the defaults in place), parse the
arguments with malformed JSON degrading to the empty object, and build the
`tool_call` wire event, whose `call_id` sits beside `type` and `data`. -/
def handleToolCall (jsonLoads : String → Option JsonVal) (item : RunItemInfo) :
    WireEvent :=
  match item.rawItem with
  | none =>
      { typ := "tool_call",
        callId := none,
        data := JsonVal.obj
          [("tool_name", JsonVal.str "unknown"),
           ("arguments", JsonVal.obj []),
           ("message", JsonVal.str ("Calling " ++ "unknown"))] }
  | some raw =>
      let toolName :=
        match raw.func with
        | some fn => fn.1
        | none => raw.attrName.getD "unknown"
      let argumentsStr :=
        match raw.func with
        | some fn => fn.2
        | none => raw.attrArgs.getD "\x7b\x7d"
      let toolArgs :=
        match jsonLoads argumentsStr with
        | some v => v
        | none => JsonVal.obj []
      { typ := "tool_call",
        callId := some raw.call_id,
        data := JsonVal.obj
          [("tool_name", JsonVal.str toolName),
           ("arguments", toolArgs),
           ("message", JsonVal.str ("Calling " ++ toolName))] }

/-- The run-item dispatch table `run_item_handlers`, each handler already
specialized to its matching event name. -/
def handleRunItem (jsonLoads : String → Option JsonVal) (name : String)
    (item : RunItemInfo) : Option WireEvent :=
  if name = "tool_called" then some (handleToolCall jsonLoads item)
  else if name = "tool_output" then
    match item.rawItem with
    | some raw =>
        some { typ := "tool_output",
               data := JsonVal.obj
                 [("call_id", JsonVal.str raw.call_id),
                  ("output", JsonVal.str (item.output.getD ""))] }
    | none => some { typ := "tool_output", data := JsonVal.null }
  else if name = "message_output_created" then
    some { typ := "message_output",
           data := JsonVal.obj [("content", JsonVal.str item.text)] }
  else if name = "handoff_requested" then
    some { typ := "handoff_requested",
           data := JsonVal.obj
             [("message", JsonVal.str "Agent handoff requested"),
              ("item_id", JsonVal.str (item.itemId.getD "unknown"))] }
  else if name = "reasoning_item_created" then
    some { typ := "reasoning_created",
           data := JsonVal.obj
             [("message", JsonVal.str "Reasoning step created"),
              ("item_id", JsonVal.str (item.itemId.getD "unknown"))] }
  else if name = "mcp_approval_requested" then
    some { typ := "mcp_approval_requested",
           data := JsonVal.obj
             [("message", JsonVal.str "MCP approval requested"),
              ("item_id", JsonVal.str (item.itemId.getD "unknown"))] }
  else if name = "mcp_list_tools" then
    some { typ := "mcp_list_tools",
           data := JsonVal.obj
             [("message", JsonVal.str "MCP tools listed"),
              ("item_id", JsonVal.str (item.itemId.getD "unknown"))] }
  else none

/-- The raw-response dispatch table `response_data_handlers`, keyed by the
class of `event.data`; each handler in the table builds its wire event, a
class outside the table has no handler. -/
def handleRespData (d : RespData) : Option WireEvent :=
  match d with
  | RespData.textDelta delta =>
      some { typ := "text_delta", data := JsonVal.str delta }
  | RespData.respCreated responseId model status =>
      some
        { typ := "response_created",
          data := JsonVal.obj
            [("response_id", JsonVal.str responseId),
             ("model", JsonVal.str model),
             ("status", JsonVal.str status)] }
  | RespData.outputItemAdded itemId itemType outputIndex =>
      some
        { typ := "output_item_added",
          data := JsonVal.obj
            [("item_id", JsonVal.str itemId),
             ("item_type", JsonVal.str itemType),
             ("output_index", JsonVal.num outputIndex)] }
  | RespData.contentPartAdded itemId contentIndex partType =>
      some
        { typ := "content_part_added",
          data := JsonVal.obj
            [("item_id", JsonVal.str itemId),
             ("content_index", JsonVal.num contentIndex),
             ("part_type", JsonVal.str partType)] }
  | RespData.contentPartDone itemId contentIndex partText =>
      some
        { typ := "content_part_done",
          data := JsonVal.obj
            [("item_id", JsonVal.str itemId),
             ("content_index", JsonVal.num contentIndex),
             ("content", JsonVal.str (partText.getD ""))] }
  | RespData.outputItemDone itemId status partTexts =>
      some
        { typ := "output_item_done",
          data := JsonVal.obj
            [("item_id", JsonVal.str itemId),
             ("status", JsonVal.str status),
             ("content", JsonVal.str
               ((partTexts.getD []).foldl (fun acc t => acc ++ t.getD "") ""))] }
  | RespData.funcArgsDelta delta itemId outputIndex =>
      some
        { typ := "function_call_arguments_delta",
          data := JsonVal.obj
            [("delta", JsonVal.str delta),
             ("item_id", JsonVal.str itemId),
             ("output_index", JsonVal.num outputIndex)] }
  | RespData.completed responseId model status usage =>
      some
        { typ := "response_completed",
          data := JsonVal.obj
            [("response_id", JsonVal.str responseId),
             ("model", JsonVal.str model),
             ("status", JsonVal.str (status.getD "completed")),
             ("usage",
               match usage with
               | some (i, o, t) => JsonVal.obj
                   [("input_tokens", JsonVal.num i),
                    ("output_tokens", JsonVal.num o),
                    ("total_tokens", JsonVal.num t)]
               | none => JsonVal.null)] }
  | RespData.otherData _ => none

/-- The `type` strings of the custom dict events `process_event`
recognizes. -/
def recognizedDictTypes : List String :=
  ["client_tool_call", "execution_paused", "client_tool_execution_required", "done"]

/-- The run-item event names of the `run_item_handlers` table. -/
def runItemNames : List String :=
  ["tool_called", "tool_output", "message_output_created", "handoff_requested",
   "reasoning_item_created", "mcp_approval_requested", "mcp_list_tools"]

/-- `EventProcessor.process_event`: the if-chain over custom dict events,
then `AgentUpdatedStreamEvent`, then the run-item name table, then the
raw-response class table; everything else falls through to the debug log
and `None`. Totality of this function is the no-raise half of the
normalizer's contract. -/
def process_event (jsonLoads : String → Option JsonVal) (event : RawEvent) :
    Option WireEvent :=
  match event with
  | RawEvent.dict typ p =>
      if typ = some "client_tool_call" then
        some { typ := "client_tool_call",
               data := JsonVal.obj
                 [("tool_name",
                    match p.tool_name with
                    | some s => JsonVal.str s
                    | none => JsonVal.null),
                  ("parameters", p.parameters.getD (JsonVal.obj [])),
                  ("tool_call_id",
                    match p.tool_call_id with
                    | some s => JsonVal.str s
                    | none => JsonVal.null),
                  ("session_id",
                    match p.session_id with
                    | some s => JsonVal.str s
                    | none => JsonVal.null),
                  ("message", JsonVal.str ("Client tool " ++ optShow p.tool_name ++
                    " requires execution on the client side"))] }
      else if typ = some "execution_paused" then
        some { typ := "execution_paused",
               data := p.dataField.getD (JsonVal.obj []) }
      else if typ = some "client_tool_execution_required" then
        some { typ := "client_tool_execution_required",
               data := p.dataField.getD (JsonVal.obj []) }
      else if typ = some "done" then
        some { typ := "done", data := JsonVal.null }
      else none
  | RawEvent.agentUpdated newAgentName =>
      some { typ := "agent_updated",
             data := JsonVal.obj [("agent_name", JsonVal.str newAgentName)] }
  | RawEvent.runItem name item => handleRunItem jsonLoads name item
  | RawEvent.withData d => handleRespData d
  | RawEvent.plain _ => none

/-- Whether `process_event` has a branch for the event: one of the four
custom dict `type` strings, an agent switch, a run-item name in the
dispatch table, or a `data` payload class in the dispatch table. -/
def recognizedEvent : RawEvent → Bool
  | RawEvent.dict typ _ => recognizedDictTypes.any (fun t => typ == some t)
  | RawEvent.agentUpdated _ => true
  | RawEvent.runItem name _ => runItemNames.contains name
  | RawEvent.withData d =>
      match d with
      | RespData.otherData _ => false
      | _ => true
  | RawEvent.plain _ => false

/-- The item a pending sentinel resolves to when the rewrite pass has a
match for every sentinel: matched sentinels become the replacement, other
items stay themselves. -/
def resolveItem (rs : List ClientToolResult) (it : Item) : Item :=
  if isPendingSentinel it then
    match findMatch rs it.tool_call_id with
    | some r => replacementItem r
    | none => it
  else it

/-- A whitespace-only user message (dropped by the write-time filter). -/
def blankUserItem : Item :=
  { role := some "user", tool_call_id := none,
    content := some (ItemContent.str " "), extra := 0 }

/-- A user message with content, for concrete scenarios. -/
def userHiItem : Item :=
  { role := some "user", tool_call_id := none,
    content := some (ItemContent.str "hi"), extra := 0 }

/-- An assistant message, for concrete scenarios. -/
def asstHelloItem : Item :=
  { role := some "assistant", tool_call_id := none,
    content := some (ItemContent.str "hello"), extra := 0 }

/-- Another assistant message, for concrete scenarios. -/
def asstByeItem : Item :=
  { role := some "assistant", tool_call_id := none,
    content := some (ItemContent.str "bye"), extra := 0 }

/-- Two concrete `add_items` batches: three surviving items overall. -/
def demoBatches : List (List Item) :=
  [[userHiItem, asstHelloItem], [asstByeItem]]

/-- A persisted pending-sentinel tool result for call `call_1` (the stub
writes the marker inside a JSON payload, detected by substring). -/
def sentinelItemA : Item :=
  { role := some "tool", tool_call_id := some "call_1",
    content := some (ItemContent.str "status PENDING_CLIENT_EXECUTION pending"),
    extra := 0 }

/-- A client tool result answering `call_1` with text. -/
def resultA : ClientToolResult :=
  { tool_call_id := "call_1", tool_name := "play_music",
    result := some "Playing now", error := none }

/-- A client tool result answering `call_1` whose result text is the (falsy)
empty string. -/
def emptyResultA : ClientToolResult :=
  { tool_call_id := "call_1", tool_name := "play_music",
    result := some "", error := none }

/-- A pending sentinel for call `call_9`, matched by no supplied result. -/
def unmatchedSentinelItem : Item :=
  { role := some "tool", tool_call_id := some "call_9",
    content := some (ItemContent.str "PENDING_CLIENT_EXECUTION"), extra := 0 }

/-- A client tool result for an unrelated call. -/
def otherResult : ClientToolResult :=
  { tool_call_id := "other_call", tool_name := "send_sms",
    result := some "sent", error := none }

/-- A custom dict event payload with no fields set. -/
def emptyDictPayload : DictEventPayload :=
  { tool_name := none, parameters := none, tool_call_id := none,
    session_id := none, dataField := none }

/-- A concrete client tool definition. -/
def demoClientTool : ClientToolDefinition :=
  { name := "mobile_play_music",
    description := "Play music on the mobile device", params_schema := none }

/-- A concrete agent definition with one pre-existing server tool. -/
def demoAgent : Agent :=
  { name := "triage_agent", instructions := "help",
    tools := some [AgentTool.server 0],
    tool_use_behavior := ToolUseBehavior.runLLMAgain }

section StoreLemmas

lemma stampRows_map_data (now : Nat) (items : List Item) :
    (stampRows now items).map (fun r => r.data) = items := by
  induction items generalizing now with
  | nil => rfl
  | cons it rest ih => simp [stampRows, ih]

lemma stampRows_created_mem (now : Nat) (items : List Item) :
    ∀ r ∈ stampRows now items, now ≤ r.created ∧ r.created < now + items.length := by
  induction items generalizing now with
  | nil => intro r hr; simp [stampRows] at hr
  | cons it rest ih =>
      intro r hr
      simp only [stampRows, List.mem_cons] at hr
      rcases hr with rfl | hr
      · simp
      · have h := ih (now + 1) r hr
        constructor
        · omega
        · simp only [List.length_cons]; omega

lemma stampRows_pairwise (now : Nat) (items : List Item) :
    (stampRows now items).Pairwise (fun a b => a.created < b.created) := by
  induction items generalizing now with
  | nil => exact List.Pairwise.nil
  | cons it rest ih =>
      refine List.Pairwise.cons ?_ (ih (now + 1))
      intro r hr
      have h := stampRows_created_mem (now + 1) rest r hr
      show now < r.created
      omega

lemma add_items_rows (st : SessionState) (now : Nat) (items : List Item) :
    (add_items st now items).rows = st.rows ++ stampRows now (keptItems items) := by
  unfold add_items keptItems
  by_cases h : items.isEmpty
  · rw [List.isEmpty_iff] at h
    subst h
    simp [stampRows]
  · rw [if_neg h]
    by_cases h2 : items.filter (fun it => ! is_empty_user_message it) = []
    · simp [h2, stampRows]
    · have h2' : (items.filter (fun it => ! is_empty_user_message it)).isEmpty = false := by
        simpa [List.isEmpty_iff] using h2
      simp [h2']

lemma add_items_bound (st : SessionState) (now : Nat) (items : List Item)
    (hb : rowsBound st now) :
    rowsBound (add_items st now items) (now + items.length + 1) := by
  intro r hr
  rw [add_items_rows, List.mem_append] at hr
  rcases hr with hr | hr
  · have := hb r hr; omega
  · have h := stampRows_created_mem now (keptItems items) r hr
    have hlen : (keptItems items).length ≤ items.length := List.length_filter_le _ _
    omega

lemma add_items_sorted (st : SessionState) (now : Nat) (items : List Item)
    (hs : rowsSorted st) (hb : rowsBound st now) :
    rowsSorted (add_items st now items) := by
  unfold rowsSorted
  rw [add_items_rows, List.pairwise_append]
  refine ⟨hs, stampRows_pairwise now _, ?_⟩
  intro a ha b hb2
  have h1 := hb a ha
  have h2 := stampRows_created_mem now (keptItems items) b hb2
  omega

/-- The clock after a batch sequence has run. -/
def finalClock (now : Nat) : List (List Item) → Nat
  | [] => now
  | b :: bs => finalClock (now + b.length + 1) bs

lemma runBatches_spec (batches : List (List Item)) :
    ∀ st now, rowsBound st now → rowsSorted st →
      (runBatches st now batches).rows.map (fun r => r.data)
          = st.rows.map (fun r => r.data) ++ (batches.map keptItems).flatten
        ∧ rowsSorted (runBatches st now batches)
        ∧ rowsBound (runBatches st now batches) (finalClock now batches) := by
  induction batches with
  | nil => intro st now hb hs; simp [runBatches, finalClock, hb, hs]
  | cons b bs ih =>
      intro st now hb hs
      have hb' := add_items_bound st now b hb
      have hs' := add_items_sorted st now b hs hb
      obtain ⟨h1, h2, h3⟩ := ih (add_items st now b) (now + b.length + 1) hb' hs'
      refine ⟨?_, ?_, ?_⟩
      · rw [show runBatches st now (b :: bs) = runBatches (add_items st now b) (now + b.length + 1) bs from rfl]
        rw [h1, add_items_rows, List.map_append, stampRows_map_data]
        simp [List.append_assoc]
      · exact h2
      · exact h3

lemma insertAsc_front (r : Row) (l : List Row)
    (h : ∀ x ∈ l, r.created < x.created) : insertAsc r l = r :: l := by
  cases l with
  | nil => rfl
  | cons x xs =>
      have hx : r.created ≤ x.created := Nat.le_of_lt (h x (List.mem_cons_self x xs))
      simp [insertAsc, hx]

lemma orderAsc_sorted_id (l : List Row)
    (h : l.Pairwise (fun a b => a.created < b.created)) : orderAsc l = l := by
  induction l with
  | nil => rfl
  | cons r rest ih =>
      rw [List.pairwise_cons] at h
      rw [show orderAsc (r :: rest) = insertAsc r (orderAsc rest) from rfl,
        ih h.2, insertAsc_front r rest h.1]

lemma insertDesc_back (r : Row) (l : List Row)
    (h : ∀ x ∈ l, r.created < x.created) : insertDesc r l = l ++ [r] := by
  induction l with
  | nil => rfl
  | cons x xs ih =>
      have hx : ¬ x.created ≤ r.created := by
        have := h x (List.mem_cons_self x xs); omega
      simp only [insertDesc, hx, if_false, List.cons_append]
      rw [ih (fun y hy => h y (List.mem_cons_of_mem x hy))]

lemma orderDesc_sorted_rev (l : List Row)
    (h : l.Pairwise (fun a b => a.created < b.created)) : orderDesc l = l.reverse := by
  induction l with
  | nil => rfl
  | cons r rest ih =>
      rw [List.pairwise_cons] at h
      rw [show orderDesc (r :: rest) = insertDesc r (orderDesc rest) from rfl,
        ih h.2, insertDesc_back r rest.reverse (fun x hx => h.1 x (List.mem_reverse.mp hx)),
        List.reverse_cons]

end StoreLemmas

/-- C3 counterexample: `add_items` with an empty input list is a complete
no-op — with the conversation's `updated_at` at 5 and the clock at 9, the
call returns the state unchanged, so `updated_at` did not advance (the
claim asserts it still advances on empty input). -/
theorem add_items_empty_input_counterexample :
    add_items { rows := [], updatedAt := 5 } 9 []
        = { rows := [], updatedAt := 5 }
      ∧ (5 : Nat) ≠ 9 := by
  exact ⟨rfl, by decide⟩

/-- C3 (amended): for a non-empty input batch in which every item is
filtered out as an empty user-authored message, `add_items` writes no
message rows and still advances the session's `updated_at` to the current
clock; an empty input list returns before touching anything. -/
theorem add_items_all_filtered_touches_timestamp (st : SessionState) (now : Nat)
    (items : List Item) (hne : items ≠ [])
    (hall : ∀ it ∈ items, is_empty_user_message it = true) :
    (add_items st now items).rows = st.rows
      ∧ (add_items st now items).updatedAt = now := by
  have hie : items.isEmpty = false := by
    cases items with
    | nil => exact absurd rfl hne
    | cons a l => rfl
  have hfe : items.filter (fun it => ! is_empty_user_message it) = [] := by
    rw [List.filter_eq_nil_iff]
    intro it hit
    simp [hall it hit]
  constructor <;> simp [add_items, hie, hfe]

/-- Witness for C3's theorem at a concrete input: one whitespace-only user
message, clock 9, previous `updated_at` 5. -/
theorem add_items_all_filtered_witness :
    ([blankUserItem] : List Item) ≠ []
      ∧ (∀ it ∈ ([blankUserItem] : List Item), is_empty_user_message it = true)
      ∧ ((add_items { rows := [], updatedAt := 5 } 9 [blankUserItem]).rows
            = ({ rows := [], updatedAt := 5 } : SessionState).rows
          ∧ (add_items { rows := [], updatedAt := 5 } 9 [blankUserItem]).updatedAt = 9) :=
  ⟨by decide, by decide,
    add_items_all_filtered_touches_timestamp { rows := [], updatedAt := 5 } 9
      [blankUserItem] (by decide) (by decide)⟩

/-- C4: over any sequence of `add_items` batches against one session
(starting empty), `get_items` with no limit returns exactly the items that
survived the write-time filter, in the order they were added, batches
concatenated in call order and order kept within each batch. -/
theorem get_items_returns_insertion_order (batches : List (List Item)) :
    get_items (runBatches { rows := [], updatedAt := 0 } 1 batches) none
      = (batches.map keptItems).flatten := by
  obtain ⟨h1, h2, h3⟩ := runBatches_spec batches { rows := [], updatedAt := 0 } 1
    (by intro r hr; simp at hr) (by simp [rowsSorted])
  show (orderAsc (runBatches { rows := [], updatedAt := 0 } 1 batches).rows).map
      (fun r => r.data) = _
  rw [orderAsc_sorted_id _ h2, h1]
  simp

/-- C5: for a session holding `N` stored items and `k < N`, `get_items`
with limit `k` returns exactly the last `k` items of the history, in
chronological order (the suffix of the insertion-order list, not its
reverse), and the returned sequence has length `k`. -/
theorem get_items_limit_returns_latest_chronological
    (batches : List (List Item)) (k : Nat)
    (hk : k < ((batches.map keptItems).flatten).length) :
    get_items (runBatches { rows := [], updatedAt := 0 } 1 batches) (some k)
        = ((batches.map keptItems).flatten).drop
            (((batches.map keptItems).flatten).length - k)
      ∧ (get_items (runBatches { rows := [], updatedAt := 0 } 1 batches)
          (some k)).length = k := by
  obtain ⟨h1, h2, h3⟩ := runBatches_spec batches { rows := [], updatedAt := 0 } 1
    (by intro r hr; simp at hr) (by simp [rowsSorted])
  have hmap : (runBatches { rows := [], updatedAt := 0 } 1 batches).rows.map
      (fun r => r.data) = (batches.map keptItems).flatten := by
    simpa using h1
  have hlen : (runBatches { rows := [], updatedAt := 0 } 1 batches).rows.length
      = ((batches.map keptItems).flatten).length := by
    rw [← hmap, List.length_map]
  constructor
  · show ((((orderDesc (runBatches { rows := [], updatedAt := 0 } 1 batches).rows)).take
        k).map (fun r => r.data)).reverse = _
    rw [orderDesc_sorted_rev _ h2, List.map_take, List.map_reverse, hmap,
      List.take_reverse, List.reverse_reverse]
  · show ((((orderDesc (runBatches { rows := [], updatedAt := 0 } 1 batches).rows)).take
        k).map (fun r => r.data)).reverse.length = k
    rw [List.length_reverse, List.length_map, List.length_take,
      orderDesc_sorted_rev _ h2, List.length_reverse]
    omega

/-- Witness for C5's theorem at a concrete input: two batches with three
surviving items, `k = 1`. -/
theorem get_items_limit_witness :
    (1 : Nat) < ((demoBatches.map keptItems).flatten).length
      ∧ (get_items (runBatches { rows := [], updatedAt := 0 } 1 demoBatches) (some 1)
          = ((demoBatches.map keptItems).flatten).drop
              (((demoBatches.map keptItems).flatten).length - 1)
        ∧ (get_items (runBatches { rows := [], updatedAt := 0 } 1 demoBatches)
            (some 1)).length = 1) :=
  ⟨by decide, get_items_limit_returns_latest_chronological demoBatches 1 (by decide)⟩

/-- C6: resuming after client tools without an active session fails at once
with the `Session required for continuation` error, before any history is
read, any rewrite happens or any generation is attempted — the error branch
is taken before the model touches any store state, so no state changes. -/
theorem continue_without_session_fails (now : Nat)
    (tool_results : List ClientToolResult) :
    continue_after_client_tools none now tool_results
      = Except.error "Session required for continuation" := rfl

section RewriteLemmas

lemma continueRewrite_eq_filterMap (rs : List ClientToolResult) (items : List Item) :
    continueRewrite rs items = items.filterMap (rewriteResumeItem rs) := by
  induction items with
  | nil => rfl
  | cons it rest ih =>
      by_cases hs : isPendingSentinel it
      · cases hfm : findMatch rs it.tool_call_id with
        | some r => simp [continueRewrite, rewriteResumeItem, hs, hfm, ih]
        | none => simp [continueRewrite, rewriteResumeItem, hs, hfm, ih]
      · simp [continueRewrite, rewriteResumeItem, hs, ih]

lemma continueRewrite_eq_map (rs : List ClientToolResult) (items : List Item)
    (hall : ∀ it ∈ items, isPendingSentinel it = true →
      (findMatch rs it.tool_call_id).isSome = true) :
    continueRewrite rs items = items.map (resolveItem rs) := by
  induction items with
  | nil => rfl
  | cons it rest ih =>
      have hrest : ∀ x ∈ rest, isPendingSentinel x = true →
          (findMatch rs x.tool_call_id).isSome = true :=
        fun x hx => hall x (List.mem_cons_of_mem it hx)
      by_cases hs : isPendingSentinel it
      · obtain ⟨r, hr⟩ :=
          Option.isSome_iff_exists.mp (hall it (List.mem_cons_self it rest) hs)
        simp [continueRewrite, resolveItem, hs, hr, ih hrest]
      · simp [continueRewrite, resolveItem, hs, ih hrest]

end RewriteLemmas

/-- C1 counterexample: a matched sentinel whose supplied result text is the
empty string (present, not absent) is rewritten to the synthetic
`executed successfully` placeholder, not to the supplied text, because the
code's `result or fallback` treats the empty string as falsy. -/
theorem continue_rewrite_counterexample :
    isPendingSentinel sentinelItemA = true
      ∧ emptyResultA.result = some ""
      ∧ findMatch [emptyResultA] sentinelItemA.tool_call_id = some emptyResultA
      ∧ continueRewrite [emptyResultA] [sentinelItemA]
          = [{ role := some "tool", tool_call_id := some "call_1",
               content := some (ItemContent.str "Tool play_music executed successfully"),
               extra := 0 }]
      ∧ ¬ ((continueRewrite [emptyResultA] [sentinelItemA]).map (fun it => it.content)
            = [some (ItemContent.str "")]) := by
  decide

/-- C1 (amended): during the resume rewrite, when every pending sentinel in
the history has a matching supplied result, the rewritten history has the
same length, a matched sentinel at position `i` is replaced at that same
position by a tool item carrying its call id and the supplied result text —
or the synthetic `Tool <name> executed successfully` placeholder when the
result text is absent or empty — and every item that is not a pending
sentinel passes through unchanged at its original position. -/
theorem continue_rewrite_replaces_matched_sentinels (rs : List ClientToolResult)
    (items : List Item)
    (hall : ∀ it ∈ items, isPendingSentinel it = true →
      (findMatch rs it.tool_call_id).isSome = true) :
    (continueRewrite rs items).length = items.length
      ∧ ∀ (i : Nat) (it : Item), items[i]? = some it →
          ((isPendingSentinel it = false →
              (continueRewrite rs items)[i]? = some it)
            ∧ (isPendingSentinel it = true →
                ∃ r, findMatch rs it.tool_call_id = some r
                  ∧ (continueRewrite rs items)[i]? = some
                      ({ role := some "tool",
                         tool_call_id := some r.tool_call_id,
                         content := some (ItemContent.str
                           (match r.result with
                            | some s =>
                                if s = "" then
                                  "Tool " ++ r.tool_name ++ " executed successfully"
                                else s
                            | none =>
                                "Tool " ++ r.tool_name ++ " executed successfully")),
                         extra := 0 } : Item))) := by
  have hmap := continueRewrite_eq_map rs items hall
  constructor
  · rw [hmap, List.length_map]
  · intro i it hget
    have hmem : it ∈ items := List.getElem?_mem hget
    constructor
    · intro hs
      rw [hmap, List.getElem?_map, hget]
      simp [resolveItem, hs]
    · intro hs
      obtain ⟨r, hr⟩ := Option.isSome_iff_exists.mp (hall it hmem hs)
      refine ⟨r, hr, ?_⟩
      rw [hmap, List.getElem?_map, hget]
      cases hres : r.result with
      | some s =>
          by_cases hse : s = "" <;>
            simp [resolveItem, hs, hr, replacementItem, resultContent, hres, hse]
      | none => simp [resolveItem, hs, hr, replacementItem, resultContent, hres]

/-- Witness for C1's theorem at a concrete input: a user message followed by
a matched sentinel, the result text `Playing now` supplied for it. -/
theorem continue_rewrite_witness :
    (∀ it ∈ [userHiItem, sentinelItemA], isPendingSentinel it = true →
        (findMatch [resultA] it.tool_call_id).isSome = true)
      ∧ ((continueRewrite [resultA] [userHiItem, sentinelItemA]).length
            = ([userHiItem, sentinelItemA] : List Item).length
          ∧ ∀ (i : Nat) (it : Item),
              ([userHiItem, sentinelItemA] : List Item)[i]? = some it →
              ((isPendingSentinel it = false →
                  (continueRewrite [resultA] [userHiItem, sentinelItemA])[i]? = some it)
                ∧ (isPendingSentinel it = true →
                    ∃ r, findMatch [resultA] it.tool_call_id = some r
                      ∧ (continueRewrite [resultA] [userHiItem, sentinelItemA])[i]?
                          = some
                            ({ role := some "tool",
                               tool_call_id := some r.tool_call_id,
                               content := some (ItemContent.str
                                 (match r.result with
                                  | some s =>
                                      if s = "" then
                                        "Tool " ++ r.tool_name ++ " executed successfully"
                                      else s
                                  | none =>
                                      "Tool " ++ r.tool_name ++ " executed successfully")),
                               extra := 0 } : Item)))) :=
  ⟨by decide,
    continue_rewrite_replaces_matched_sentinels [resultA] [userHiItem, sentinelItemA]
      (by decide)⟩

/-- C7: a pending-sentinel item whose call id matches none of the supplied
results is omitted from the rewritten history entirely — removing it from
the input does not change the output, and the rewritten history is strictly
shorter than the original. -/
theorem unmatched_sentinel_dropped (rs : List ClientToolResult) (items : List Item)
    (i : Nat) (it : Item) (hget : items[i]? = some it)
    (hs : isPendingSentinel it = true)
    (hm : ∀ r ∈ rs, it.tool_call_id ≠ some r.tool_call_id) :
    continueRewrite rs items = continueRewrite rs (items.eraseIdx i)
      ∧ (continueRewrite rs items).length < items.length := by
  obtain ⟨hi, heq⟩ := List.getElem?_eq_some.mp hget
  have hfm : findMatch rs it.tool_call_id = none := by
    unfold findMatch
    rw [List.find?_eq_none]
    intro r hr
    simpa using hm r hr
  have hnone : rewriteResumeItem rs it = none := by
    simp [rewriteResumeItem, hs, hfm]
  have hdecomp : items = items.take i ++ it :: items.drop (i + 1) := by
    conv_lhs => rw [← List.take_append_drop i items]
    rw [List.drop_eq_getElem_cons hi, heq]
  constructor
  · rw [continueRewrite_eq_filterMap, continueRewrite_eq_filterMap,
      List.eraseIdx_eq_take_drop_succ]
    conv_lhs => rw [hdecomp]
    rw [List.filterMap_append, List.filterMap_append]
    simp [List.filterMap_cons, hnone]
  · rw [continueRewrite_eq_filterMap]
    conv_lhs => rw [hdecomp]
    rw [List.filterMap_append, List.length_append]
    have h1 : (List.filterMap (rewriteResumeItem rs) (items.take i)).length ≤ i := by
      refine le_trans (List.length_filterMap_le _ _) ?_
      simp [List.length_take]
    have h2 : (List.filterMap (rewriteResumeItem rs) (it :: items.drop (i + 1))).length
        ≤ items.length - (i + 1) := by
      rw [List.filterMap_cons_none hnone]
      refine le_trans (List.length_filterMap_le _ _) ?_
      simp [List.length_drop]
    omega

/-- Witness for C7's theorem at a concrete input: a history of a user
message and an unmatched sentinel at index 1, one unrelated result
supplied. -/
theorem unmatched_sentinel_witness :
    ([userHiItem, unmatchedSentinelItem] : List Item)[1]? = some unmatchedSentinelItem
      ∧ isPendingSentinel unmatchedSentinelItem = true
      ∧ (∀ r ∈ [otherResult], unmatchedSentinelItem.tool_call_id ≠ some r.tool_call_id)
      ∧ (continueRewrite [otherResult] [userHiItem, unmatchedSentinelItem]
            = continueRewrite [otherResult]
                (([userHiItem, unmatchedSentinelItem] : List Item).eraseIdx 1)
          ∧ (continueRewrite [otherResult] [userHiItem, unmatchedSentinelItem]).length
              < ([userHiItem, unmatchedSentinelItem] : List Item).length) :=
  ⟨by decide, by decide, by decide,
    unmatched_sentinel_dropped [otherResult] [userHiItem, unmatchedSentinelItem] 1
      unmatchedSentinelItem (by decide) (by decide) (by decide)⟩

/-- C2: a send request is dispatched to the resume contract exactly when it
carries one or more client tool results; in particular a request with both a
non-empty message and non-empty tool results is a continuation, never a
fresh run. -/
theorem continuation_iff_tool_results (request : MessageRequest) :
    (dispatchMode request = RunMode.resume ↔ request.tool_results.getD [] ≠ [])
      ∧ (request.message ≠ "" → request.tool_results.getD [] ≠ [] →
          dispatchMode request = RunMode.resume) := by
  have hiff : dispatchMode request = RunMode.resume ↔
      request.tool_results.getD [] ≠ [] := by
    cases h : request.tool_results with
    | none => simp [dispatchMode, is_continuation, h]
    | some l =>
        cases l with
        | nil => simp [dispatchMode, is_continuation, h]
        | cons a as => simp [dispatchMode, is_continuation, h]
  exact ⟨hiff, fun _ h2 => hiff.mpr h2⟩

/-- C8: a client-tool stub invocation runs no tool logic and returns the
structured pending payload: the pending-status marker, the tool name, the
call identifier, and the arguments parsed from the call's JSON string —
with malformed JSON degrading to the empty object instead of raising (the
handler is a total function of the parse outcome). -/
theorem client_tool_stub_returns_pending_payload
    (jsonLoads : String → Option JsonVal) (toolName toolCallId args : String) :
    (client_tool_handler jsonLoads toolName toolCallId args).status
        = "PENDING_CLIENT_EXECUTION"
      ∧ (client_tool_handler jsonLoads toolName toolCallId args).tool_name = toolName
      ∧ (client_tool_handler jsonLoads toolName toolCallId args).tool_call_id
          = toolCallId
      ∧ (client_tool_handler jsonLoads toolName toolCallId args).parameters
          = (jsonLoads args).getD (JsonVal.obj [])
      ∧ (jsonLoads args = none →
          (client_tool_handler jsonLoads toolName toolCallId args).parameters
            = JsonVal.obj []) := by
  refine ⟨rfl, rfl, rfl, ?_, ?_⟩
  · cases h : jsonLoads args <;> simp [client_tool_handler, h]
  · intro h
    simp [client_tool_handler, h]

/-- C9: `process_event` is total, and every event it has no branch for — a
dict whose `type` is none of the recognized custom-control strings, a
run-item event whose name is outside the dispatch table, a raw event whose
`data` payload class is outside the dispatch table, or any other object —
is mapped to `none` (only debug-logged), never an error. -/
theorem unrecognized_events_map_to_none (jsonLoads : String → Option JsonVal)
    (event : RawEvent) (h : recognizedEvent event = false) :
    process_event jsonLoads event = none := by
  cases event with
  | dict typ p =>
      have h1 : typ ≠ some "client_tool_call" := by
        intro he; subst he; simp [recognizedEvent, recognizedDictTypes] at h
      have h2 : typ ≠ some "execution_paused" := by
        intro he; subst he; simp [recognizedEvent, recognizedDictTypes] at h
      have h3 : typ ≠ some "client_tool_execution_required" := by
        intro he; subst he; simp [recognizedEvent, recognizedDictTypes] at h
      have h4 : typ ≠ some "done" := by
        intro he; subst he; simp [recognizedEvent, recognizedDictTypes] at h
      simp [process_event, h1, h2, h3, h4]
  | agentUpdated n => simp [recognizedEvent] at h
  | runItem name item =>
      have h1 : name ≠ "tool_called" := by
        intro he; subst he; simp [recognizedEvent, runItemNames] at h
      have h2 : name ≠ "tool_output" := by
        intro he; subst he; simp [recognizedEvent, runItemNames] at h
      have h3 : name ≠ "message_output_created" := by
        intro he; subst he; simp [recognizedEvent, runItemNames] at h
      have h4 : name ≠ "handoff_requested" := by
        intro he; subst he; simp [recognizedEvent, runItemNames] at h
      have h5 : name ≠ "reasoning_item_created" := by
        intro he; subst he; simp [recognizedEvent, runItemNames] at h
      have h6 : name ≠ "mcp_approval_requested" := by
        intro he; subst he; simp [recognizedEvent, runItemNames] at h
      have h7 : name ≠ "mcp_list_tools" := by
        intro he; subst he; simp [recognizedEvent, runItemNames] at h
      simp [process_event, handleRunItem, h1, h2, h3, h4, h5, h6, h7]
  | withData d =>
      cases d with
      | otherData tag => rfl
      | textDelta delta => simp [recognizedEvent] at h
      | respCreated a b c => simp [recognizedEvent] at h
      | outputItemAdded a b c => simp [recognizedEvent] at h
      | contentPartAdded a b c => simp [recognizedEvent] at h
      | contentPartDone a b c => simp [recognizedEvent] at h
      | outputItemDone a b c => simp [recognizedEvent] at h
      | funcArgsDelta a b c => simp [recognizedEvent] at h
      | completed a b c u => simp [recognizedEvent] at h
  | plain t => rfl

/-- Witness for C9's theorem at a concrete input: a dict event with an
unknown `type` string. -/
theorem unrecognized_event_witness :
    recognizedEvent (RawEvent.dict (some "mystery_event") emptyDictPayload) = false
      ∧ process_event (fun _ => none)
          (RawEvent.dict (some "mystery_event") emptyDictPayload) = none :=
  ⟨by decide,
    unrecognized_events_map_to_none (fun _ => none)
      (RawEvent.dict (some "mystery_event") emptyDictPayload) (by decide)⟩

/-- C10: a fresh run with zero client tools (none supplied, or an empty
list) uses the cloned agent exactly as defined — same tool list, no
stop-at-tools condition attached; only a non-empty client-tool list extends
the tool list (by the non-empty converted stubs) and sets the
`StopAtTools` condition. -/
theorem zero_client_tools_leaves_agent_unmodified (agent : Agent)
    (cts : List ClientToolDefinition) (hne : cts ≠ []) :
    prepareAgentForRun agent none = agent
      ∧ prepareAgentForRun agent (some []) = agent
      ∧ ((prepareAgentForRun agent (some cts)).tools
            = some ((agent.tools.getD []) ++
                (convert_client_tools_to_function_tools cts).map AgentTool.client)
          ∧ (convert_client_tools_to_function_tools cts).map AgentTool.client ≠ []
          ∧ ∃ names, (prepareAgentForRun agent (some cts)).tool_use_behavior
              = ToolUseBehavior.stopAtTools names) := by
  have hie : cts.isEmpty = false := by
    cases cts with
    | nil => exact absurd rfl hne
    | cons a l => rfl
  refine ⟨rfl, rfl, ?_, ?_, ?_⟩
  · simp [prepareAgentForRun, hie]
  · simp [convert_client_tools_to_function_tools, hne]
  · exact ⟨(cts.map (fun ct => ct.name)).eraseDups,
      by simp [prepareAgentForRun, hie]⟩

/-- Witness for C10's theorem at a concrete input: an agent with one server
tool and a single client tool definition. -/
theorem zero_client_tools_witness :
    ([demoClientTool] : List ClientToolDefinition) ≠ []
      ∧ (prepareAgentForRun demoAgent none = demoAgent
        ∧ prepareAgentForRun demoAgent (some []) = demoAgent
        ∧ ((prepareAgentForRun demoAgent (some [demoClientTool])).tools
              = some ((demoAgent.tools.getD []) ++
                  (convert_client_tools_to_function_tools [demoClientTool]).map
                    AgentTool.client)
            ∧ (convert_client_tools_to_function_tools [demoClientTool]).map
                AgentTool.client ≠ []
            ∧ ∃ names, (prepareAgentForRun demoAgent (some [demoClientTool])).tool_use_behavior
                = ToolUseBehavior.stopAtTools names)) :=
  ⟨List.cons_ne_nil _ _,
    zero_client_tools_leaves_agent_unmodified demoAgent [demoClientTool]
      (List.cons_ne_nil _ _)⟩

end ChatBridger
